import Mathlib

/-!
Verification of a user-management CRUD service.

The service keeps a single relational table of users (unique `id`,
unique `username`, unique `email`, name fields, a role enum, an active
flag and two timestamps) and exposes create / list / get / update /
delete handlers over it.  This file gives a shallow embedding of the
data model and the five handlers and proves properties about them.

Modelling conventions:
* the table is a `List User` in insertion order; `query.filter(p).first()`
  becomes `List.find? p`, `query.offset(a).limit(b)` becomes
  `List.drop` / `List.take`;
* exceptions raised by a handler become the `Except.error` branch of the
  handler's result; a handler that errors returns no store, which models
  the fact that every raise in the source happens before any mutation is
  committed;
* timestamps are abstract clock readings (`Nat`); the commit time is an
  explicit argument of the mutating handlers;
* the ORM emits an UPDATE statement at commit time only when some column
  has a net change (setting an attribute to its current value produces
  no net change), so the `onupdate` refresh of `updated_at` happens
  exactly when the updated record differs from the stored one.
-/

namespace UserMgmt

/-- Role enum of the user table: `admin`, `user`, `guest`. -/
inductive UserRole where
  | admin
  | user
  | guest
deriving DecidableEq, Repr

/-- String value of a role member, as declared in the enum
(`ADMIN = "admin"` and so on). -/
def UserRole.value : UserRole → String
  | .admin => "admin"
  | .user => "user"
  | .guest => "guest"

/-- One row of the `users` table. -/
structure User where
  id : Int
  username : String
  email : String
  first_name : String
  last_name : String
  role : UserRole
  active : Bool
  created_at : Nat
  updated_at : Nat
deriving DecidableEq, Repr

/-- Payload of a create request, after field-level validation. -/
structure UserCreate where
  username : String
  email : String
  first_name : String
  last_name : String
  role : UserRole
  active : Bool
deriving DecidableEq, Repr

/-- Payload of an update request.  A field is `some v` when the request
supplied it (it appears in `model_dump(exclude_unset=True)`) and `none`
when the request omitted it, so a field supplied with a value equal to a
default is distinguished from an omitted one. -/
structure UserUpdate where
  username : Option String
  email : Option String
  first_name : Option String
  last_name : Option String
  role : Option UserRole
  active : Option Bool
deriving DecidableEq, Repr

/-- Errors a handler can signal. -/
inductive ApiError where
  /-- `UserNotFoundException`: HTTP 404 with the given detail string. -/
  | notFound (detail : String)
  /-- `UserAlreadyExistsException`: HTTP 409 naming the conflicting
  field and the offending value. -/
  | alreadyExists (field : String) (value : String)
  /-- HTTP 422 raised by query-parameter validation, naming the
  offending parameter. -/
  | unprocessable (param : String)
deriving DecidableEq, Repr

/-- Python rendering of an optional integer inside an f-string:
`None` renders as the text `None`. -/
def pyFormatOptInt : Option Int → String
  | none => "None"
  | some n => toString n

/-- Python rendering of an optional string inside an f-string. -/
def pyFormatOptStr : Option String → String
  | none => "None"
  | some s => s

/-- Detail string built by `UserNotFoundException.__init__`.  The source
chooses the identifier with `if user_id` (Python truthiness), so both
`None` and `0` fall through to the `username=` branch. -/
def userNotFoundDetail (user_id : Option Int) (username : Option String) : String :=
  let idTruthy : Bool :=
    match user_id with
    | some n => n != 0
    | none => false
  let identifier :=
    if idTruthy then "id=" ++ pyFormatOptInt user_id
    else "username=" ++ pyFormatOptStr username
  "User with " ++ identifier ++ " not found"

/-- `create_user`: pre-check username, then email, then insert.  The
store assigns `newId` and stamps both timestamps with the commit time
`now`. -/
def create_user (db : List User) (user : UserCreate) (newId : Int) (now : Nat) :
    Except ApiError (List User × User) :=
  match db.find? (fun u => u.username == user.username) with
  | some _ => .error (.alreadyExists "username" user.username)
  | none =>
    match db.find? (fun u => u.email == user.email) with
    | some _ => .error (.alreadyExists "email" user.email)
    | none =>
      let db_user : User :=
        ⟨newId, user.username, user.email, user.first_name, user.last_name,
          user.role, user.active, now, now⟩
      .ok (db ++ [db_user], db_user)

/-- Query parameters of the list endpoint. -/
structure ListQuery where
  skip : Int
  limit : Int
  active : Option Bool
  role : Option String
deriving DecidableEq, Repr

/-- Body of a successful list response. -/
structure UserListResponse where
  total : Nat
  users : List User
  skip : Int
  limit : Int
deriving DecidableEq, Repr

/-- Stored database value of a role member: the ORM's enum column type
persists the NAME of a PEP-435 member (not its value), so the column
holds `ADMIN`, `USER` or `GUEST`. -/
def UserRole.storedName : UserRole → String
  | .admin => "ADMIN"
  | .user => "USER"
  | .guest => "GUEST"

/-- Bind-time processing of a string compared against the enum column.
The column type's lookup table maps the member objects and the member
names to the stored names; because the members mix in `str`, a member
object hashes and compares as its value, so both a value string
(`admin`) and a name string (`ADMIN`) resolve to the stored name
`ADMIN`.  Any other string is passed through unchanged, since string
validation is off by default. -/
def enumBindValue (r : String) : String :=
  if r == "admin" || r == "ADMIN" then "ADMIN"
  else if r == "user" || r == "USER" then "USER"
  else if r == "guest" || r == "GUEST" then "GUEST"
  else r

/-- Row predicate of the list endpoint: the `active` filter is applied
when the parameter is present, the `role` filter when the parameter is
truthy (present and non-empty, from `if role:` in the source).  The
role comparison `User.role == role` is executed by the database: the
stored column value (the member name) is compared with the bind-time
processing of the query string. -/
def listFilter (q : ListQuery) (u : User) : Bool :=
  (match q.active with
   | some b => u.active == b
   | none => true)
  &&
  (match q.role with
   | some r => if r == "" then true else u.role.storedName == enumBindValue r
   | none => true)

/-- `get_users`: query-parameter validation (`skip ≥ 0`,
`1 ≤ limit ≤ 1000`, from the `Query` declarations) followed by the
handler body: count the filtered set, then page it with
offset/limit, echoing `skip` and `limit` back. -/
def get_users (db : List User) (q : ListQuery) : Except ApiError UserListResponse :=
  if q.skip < 0 then .error (.unprocessable "skip")
  else if q.limit < 1 then .error (.unprocessable "limit")
  else if 1000 < q.limit then .error (.unprocessable "limit")
  else
    .ok ⟨(db.filter (listFilter q)).length,
      ((db.filter (listFilter q)).drop q.skip.toNat).take q.limit.toNat,
      q.skip, q.limit⟩

/-- `get_user`: look the row up by id, else raise not-found. -/
def get_user (db : List User) (user_id : Int) : Except ApiError User :=
  match db.find? (fun u => u.id == user_id) with
  | none => .error (.notFound (userNotFoundDetail (some user_id) none))
  | some u => .ok u

/-- The `setattr` loop of `update_user`: apply every supplied field,
leave omitted fields untouched. -/
def applyUpdate (u : User) (d : UserUpdate) : User :=
  { u with
    username := d.username.getD u.username
    email := d.email.getD u.email
    first_name := d.first_name.getD u.first_name
    last_name := d.last_name.getD u.last_name
    role := d.role.getD u.role
    active := d.active.getD u.active }

/-- Username pre-check of `update_user`: only when the request supplies
a username that differs from the row's current one, search for any row
already holding it. -/
def checkUsername (db : List User) (db_user : User) (upd : UserUpdate) : Option ApiError :=
  match upd.username with
  | some v =>
    if v != db_user.username && (db.find? (fun u => u.username == v)).isSome
    then some (.alreadyExists "username" v) else none
  | none => none

/-- Email pre-check of `update_user`, same shape as the username one. -/
def checkEmail (db : List User) (db_user : User) (upd : UserUpdate) : Option ApiError :=
  match upd.email with
  | some v =>
    if v != db_user.email && (db.find? (fun u => u.email == v)).isSome
    then some (.alreadyExists "email" v) else none
  | none => none

/-- The commit step of `update_user`.  The ORM emits an UPDATE
statement at flush time only when some attribute has a net change
(setting an attribute to its current value produces no net change), and
the `onupdate` clause refreshes `updated_at` to the commit time exactly
when that UPDATE runs. -/
def updateCommit (db_user : User) (upd : UserUpdate) (now : Nat) : User :=
  if applyUpdate db_user upd = db_user then db_user
  else { applyUpdate db_user upd with updated_at := now }

/-- `update_user`: existence check, the two uniqueness pre-checks, the
`setattr` loop, then commit.  The returned store carries the committed
row in place of the stored one (rows are keyed by the primary-key
column `id`). -/
def update_user (db : List User) (user_id : Int) (upd : UserUpdate) (now : Nat) :
    Except ApiError (List User × User) :=
  match db.find? (fun u => u.id == user_id) with
  | none => .error (.notFound (userNotFoundDetail (some user_id) none))
  | some db_user =>
    match checkUsername db db_user upd with
    | some e => .error e
    | none =>
      match checkEmail db db_user upd with
      | some e => .error e
      | none =>
        .ok (db.map (fun u => if u.id == user_id then updateCommit db_user upd now else u),
          updateCommit db_user upd now)

/-- `delete_user`: existence check, then remove the found row (the
first row with that id) permanently. -/
def delete_user (db : List User) (user_id : Int) : Except ApiError (List User) :=
  match db.find? (fun u => u.id == user_id) with
  | none => .error (.notFound (userNotFoundDetail (some user_id) none))
  | some _ => .ok (db.eraseP (fun u => u.id == user_id))

/-- The characters of a Python string with every underscore removed,
modelling `v.replace("_", "")`. -/
def stripUnderscores (v : String) : List Char :=
  v.data.filter (fun c => c != '_')

/-- Python `str.isalnum` over the characters of a string: non-empty and
every character alphanumeric.  (Python also accepts non-ASCII Unicode
alphanumerics; the model restricts attention to ASCII, over which the
claims' regular expression ranges.) -/
def pyIsalnum (cs : List Char) : Bool :=
  !cs.isEmpty && cs.all Char.isAlphanum

/-- The `username_alphanumeric` validator of the schemas:
`v.replace("_", "").isalnum()`. -/
def username_alphanumeric (v : String) : Bool :=
  pyIsalnum (stripUnderscores v)

/-- Whether a username value passes schema validation: the field's
`min_length=3` / `max_length=50` bounds plus the
`username_alphanumeric` validator. -/
def usernameAccepted (v : String) : Bool :=
  3 ≤ v.length && v.length ≤ 50 && username_alphanumeric v

/-- Follows the spec's words: membership in the language of the regular
expression that the spec states for usernames, namely
three to fifty characters drawn from ASCII letters, digits and the
underscore. -/
def usernameRegexSpec (v : String) : Bool :=
  3 ≤ v.length && v.length ≤ 50 && v.data.all (fun c => c.isAlphanum || c == '_')

/-- Well-formedness of the table: the column constraints make `id`,
`username` and `email` pairwise distinct across rows. -/
def dbWellFormed (db : List User) : Prop :=
  db.Pairwise (fun a b => a.id ≠ b.id ∧ a.username ≠ b.username ∧ a.email ≠ b.email)

instance (db : List User) : Decidable (dbWellFormed db) := by
  unfold dbWellFormed
  infer_instance

instance {e a : Type} [DecidableEq e] [DecidableEq a] : DecidableEq (Except e a) :=
  fun x y =>
    match x, y with
    | .ok u, .ok v =>
      if h : u = v then .isTrue (by rw [h])
      else .isFalse (by intro hc; cases hc; exact h rfl)
    | .error u, .error v =>
      if h : u = v then .isTrue (by rw [h])
      else .isFalse (by intro hc; cases hc; exact h rfl)
    | .ok _, .error _ => .isFalse (by intro hc; cases hc)
    | .error _, .ok _ => .isFalse (by intro hc; cases hc)

/-- A sample stored row used to witness the theorems below. -/
def alice : User :=
  ⟨1, "alice_01", "alice@example.com", "Alice", "A", .admin, true, 10, 10⟩

/-- A second sample stored row used to witness the theorems below. -/
def bob : User :=
  ⟨2, "bob_02", "bob@example.com", "Bob", "B", .user, true, 20, 20⟩

/-- Removing the underscores and then asking that every remaining
character be alphanumeric is the same as asking that every character be
alphanumeric or an underscore. -/
theorem all_filter_ne_underscore (cs : List Char) :
    ((cs.filter fun c => c != '_').all Char.isAlphanum)
      = cs.all (fun c => c.isAlphanum || c == '_') := by
  induction cs with
  | nil => rfl
  | cons c cs ih =>
    by_cases hc : c = '_'
    · subst hc
      have h1 : (('_' : Char) != '_') = false := by decide
      have h2 : (Char.isAlphanum '_' || ('_' : Char) == '_') = true := by decide
      simp [List.filter_cons, h1, h2, ih]
    · have hb : (c != '_') = true := by simp [hc]
      have hq : (c == '_') = false := by simp [hc]
      simp [List.filter_cons, hb, hq, ih]

/-- The filtered character list is non-empty exactly when some
character survives the filter. -/
theorem isEmpty_filter_ne_underscore (cs : List Char) :
    (!(cs.filter fun c => c != '_').isEmpty) = cs.any (fun c => c != '_') := by
  induction cs with
  | nil => rfl
  | cons c cs ih =>
    by_cases hc : c = '_'
    · subst hc
      have h1 : (('_' : Char) != '_') = false := by decide
      simp [List.filter_cons, h1, ih]
    · have hb : (c != '_') = true := by simp [hc]
      simp [List.filter_cons, hb]

/-- Claim C4 counterexample: the all-underscore username matches the
regular expression published by the spec, yet schema validation rejects
it, because removing the underscores leaves the empty string and Python
`isalnum` is false on the empty string. -/
theorem username_regex_mismatch :
    usernameRegexSpec "___" = true ∧ usernameAccepted "___" = false := by
  decide

/-- Claim C4 (amended): a username is accepted exactly when it matches
the regular expression of three to fifty characters drawn from ASCII
letters, digits and the underscore AND at least one of its characters
is not an underscore. -/
theorem username_rule_amended (v : String) :
    usernameAccepted v
      = (usernameRegexSpec v && v.data.any (fun c => c != '_')) := by
  unfold usernameAccepted usernameRegexSpec username_alphanumeric pyIsalnum stripUnderscores
  rw [all_filter_ne_underscore, isEmpty_filter_ne_underscore]
  simp [Bool.and_assoc, Bool.and_comm, Bool.and_left_comm]

/-- Claim C9: on a store with no user of id `0`, the get-by-id handler
raises not-found, but because the exception constructor selects the
identifier with Python truthiness (`if user_id`), the detail string
produced for id `0` reports `username=None` instead of the requested
id.  The claim is right about the intent and the code is wrong. -/
theorem get_user_zero_detail :
    get_user ([] : List User) 0
        = .error (.notFound "User with username=None not found")
    ∧ userNotFoundDetail (some 0) none ≠ "User with id=0 not found"
    ∧ userNotFoundDetail (some 7) none = "User with id=7 not found" := by
  refine ⟨rfl, by decide, by decide⟩

/-- Claim C1: create rejects a duplicate username with the
already-exists error naming the field `username` and the offending
value; when the username is fresh but the email duplicates an existing
row, it rejects naming `email`.  The username conflict is reported
first, so when both conflict the username error wins (the first
conjunct applies regardless of the email). -/
theorem create_conflict_order (db : List User) (req : UserCreate)
    (newId : Int) (now : Nat) :
    ((∃ u ∈ db, u.username = req.username) →
      create_user db req newId now
        = .error (.alreadyExists "username" req.username))
    ∧ ((∀ u ∈ db, u.username ≠ req.username) →
      (∃ u ∈ db, u.email = req.email) →
      create_user db req newId now
        = .error (.alreadyExists "email" req.email)) := by
  constructor
  · rintro ⟨u, hu, he⟩
    unfold create_user
    split
    · rfl
    · rename_i hnone
      rw [List.find?_eq_none] at hnone
      exact absurd (by simp [he]) (hnone u hu)
  · rintro hnou ⟨u, hu, he⟩
    unfold create_user
    split
    · rename_i w hw
      have hmem := List.mem_of_find?_eq_some hw
      have hpw := List.find?_some hw
      exact absurd (by simpa using hpw) (hnou w hmem)
    · split
      · rfl
      · rename_i hnone
        rw [List.find?_eq_none] at hnone
        exact absurd (by simp [he]) (hnone u hu)

/-- Witness for C1 at a concrete input: creating a second user with
the username of the stored row fails naming the username. -/
theorem create_conflict_order_witness :
    create_user [alice] ⟨"alice_01", "x@example.com", "X", "Y", .user, true⟩ 3 30
      = .error (.alreadyExists "username" "alice_01") :=
  (create_conflict_order [alice]
      ⟨"alice_01", "x@example.com", "X", "Y", .user, true⟩ 3 30).1
    ⟨alice, by decide, by decide⟩

/-- Claim C5: with query parameters inside their declared bounds, the
list handler succeeds; the reported total is the size of the filtered
set before pagination, the page is the offset/limit window of the
filtered set, the page never exceeds `limit` records, and with at least
one matching row, `limit = 1` and `skip = 0` the page holds exactly one
record while the total still counts the whole filtered set. -/
theorem list_pagination (db : List User) (q : ListQuery)
    (h0 : 0 ≤ q.skip) (h1 : 1 ≤ q.limit) (h2 : q.limit ≤ 1000) :
    get_users db q = .ok ⟨(db.filter (listFilter q)).length,
        ((db.filter (listFilter q)).drop q.skip.toNat).take q.limit.toNat,
        q.skip, q.limit⟩
    ∧ (((db.filter (listFilter q)).drop q.skip.toNat).take q.limit.toNat).length
        ≤ q.limit.toNat
    ∧ (q.limit = 1 → q.skip = 0 → 1 ≤ (db.filter (listFilter q)).length →
        (((db.filter (listFilter q)).drop q.skip.toNat).take q.limit.toNat).length
          = 1) := by
  refine ⟨?_, ?_, ?_⟩
  · unfold get_users
    rw [if_neg (by omega), if_neg (by omega), if_neg (by omega)]
  · rw [List.length_take]
    exact inf_le_left
  · intro hl hs hn
    rw [hl, hs]
    simp only [Int.toNat_one, Int.toNat_zero, List.drop_zero, List.length_take]
    rw [Nat.min_def]
    split <;> omega

/-- Witness for C5 at a concrete input: two stored rows, `limit = 1`:
the page has exactly one record and the total is still two. -/
theorem list_pagination_witness :
    get_users [alice, bob] ⟨0, 1, none, none⟩ = .ok ⟨2, [alice], 0, 1⟩ :=
  ((list_pagination [alice, bob] ⟨0, 1, none, none⟩
      (by decide) (by decide) (by decide)).1).trans (by decide)

/-- Claim C6: when the store is in ascending id (insertion) order, the
page returned by the list handler is as well — the filter, offset and
limit steps all preserve the store's order — and the response echoes
the effective `skip` and `limit` values back. -/
theorem list_order_echo (db : List User) (q : ListQuery)
    (hs : db.Pairwise (fun a b => a.id < b.id)) (resp : UserListResponse)
    (hok : get_users db q = .ok resp) :
    resp.users.Pairwise (fun a b => a.id < b.id)
    ∧ resp.skip = q.skip ∧ resp.limit = q.limit := by
  unfold get_users at hok
  split at hok
  · simp at hok
  · split at hok
    · simp at hok
    · split at hok
      · simp at hok
      · injection hok with h
        subst h
        refine ⟨?_, rfl, rfl⟩
        have s1 := List.take_sublist q.limit.toNat
          ((db.filter (listFilter q)).drop q.skip.toNat)
        have s2 := List.drop_sublist q.skip.toNat (db.filter (listFilter q))
        have s3 := List.filter_sublist (p := listFilter q) db
        exact List.Pairwise.sublist (s1.trans (s2.trans s3)) hs

/-- Witness for C6 at a concrete input: the page over a two-row store
comes back in ascending id order and echoes the parameters. -/
theorem list_order_echo_witness :
    (UserListResponse.mk 2 [alice, bob] 0 100).users.Pairwise
        (fun a b => a.id < b.id)
    ∧ (UserListResponse.mk 2 [alice, bob] 0 100).skip = 0
    ∧ (UserListResponse.mk 2 [alice, bob] 0 100).limit = 100 :=
  list_order_echo [alice, bob] ⟨0, 100, none, none⟩ (by decide)
    (UserListResponse.mk 2 [alice, bob] 0 100) (by decide)

/-- After erasing the row with a given id from a store whose ids are
distinct, no row with that id remains. -/
theorem find?_eraseP_id (db : List User) (uid : Int)
    (h : (db.map User.id).Nodup) :
    (db.eraseP (fun u => u.id == uid)).find? (fun u => u.id == uid) = none := by
  induction db with
  | nil => rfl
  | cons u rest ih =>
    rw [List.map_cons, List.nodup_cons] at h
    by_cases hu : u.id = uid
    · have hp : (u.id == uid) = true := by simp [hu]
      rw [List.eraseP_cons, hp]
      simp only [cond_true]
      rw [List.find?_eq_none]
      intro x hx
      simp only [beq_iff_eq]
      intro hxid
      have hm : x.id ∈ List.map User.id rest := List.mem_map_of_mem User.id hx
      rw [hxid, ← hu] at hm
      exact h.1 hm
    · have hp : (u.id == uid) = false := by simp [hu]
      rw [List.eraseP_cons, hp]
      simp only [cond_false]
      rw [List.find?_cons_of_neg _ (by simp [hu])]
      exact ih h.2

/-- Claim C7: delete raises not-found when no row has the id, and
otherwise removes the row; afterwards a get on that id raises
not-found, and a second delete of the same id raises not-found as
well.  The ids of a store are distinct because `id` is the primary
key. -/
theorem delete_semantics (db : List User) (uid : Int)
    (h : (db.map User.id).Nodup) :
    (db.find? (fun u => u.id == uid) = none →
        delete_user db uid
          = .error (.notFound (userNotFoundDetail (some uid) none)))
    ∧ (∀ du, db.find? (fun u => u.id == uid) = some du →
        delete_user db uid = .ok (db.eraseP (fun u => u.id == uid))
        ∧ get_user (db.eraseP (fun u => u.id == uid)) uid
            = .error (.notFound (userNotFoundDetail (some uid) none))
        ∧ delete_user (db.eraseP (fun u => u.id == uid)) uid
            = .error (.notFound (userNotFoundDetail (some uid) none))) := by
  have hz := find?_eraseP_id db uid h
  constructor
  · intro hnone
    unfold delete_user
    rw [hnone]
  · intro du hdu
    refine ⟨?_, ?_, ?_⟩
    · unfold delete_user
      rw [hdu]
    · unfold get_user
      rw [hz]
    · unfold delete_user
      rw [hz]

/-- Witness for C7 at a concrete input: deleting id `1` from a two-row
store removes the first row, then both a get and a second delete on
id `1` raise not-found. -/
theorem delete_semantics_witness :
    delete_user [alice, bob] 1 = .ok [bob]
    ∧ get_user [bob] 1 = .error (.notFound "User with id=1 not found")
    ∧ delete_user [bob] 1 = .error (.notFound "User with id=1 not found") := by
  have h := (delete_semantics [alice, bob] 1 (by decide)).2 alice (by decide)
  exact ⟨h.1.trans (by decide), h.2.1.trans (by decide), h.2.2.trans (by decide)⟩

/-- Inverting a successful update: the returned record is the commit
of the found row under the request. -/
theorem update_ok_inv (db : List User) (uid : Int) (upd : UserUpdate)
    (now : Nat) (db_user : User) (db2 : List User) (newu : User)
    (hfind : db.find? (fun u => u.id == uid) = some db_user)
    (hok : update_user db uid upd now = .ok (db2, newu)) :
    newu = updateCommit db_user upd now := by
  unfold update_user at hok
  split at hok
  · rename_i heq
    rw [hfind] at heq
    cases heq
  · rename_i x heq
    rw [hfind] at heq
    injection heq with hx
    subst hx
    split at hok
    · simp at hok
    · split at hok
      · simp at hok
      · injection hok with h
        exact (congrArg Prod.snd h).symm

/-- Field-by-field description of the committed record: each request
field lands when supplied, each omitted field keeps its stored value,
and the id and creation timestamp are untouched. -/
theorem updateCommit_fields (db_user : User) (upd : UserUpdate) (now : Nat) :
    (updateCommit db_user upd now).username = upd.username.getD db_user.username
    ∧ (updateCommit db_user upd now).email = upd.email.getD db_user.email
    ∧ (updateCommit db_user upd now).first_name
        = upd.first_name.getD db_user.first_name
    ∧ (updateCommit db_user upd now).last_name
        = upd.last_name.getD db_user.last_name
    ∧ (updateCommit db_user upd now).role = upd.role.getD db_user.role
    ∧ (updateCommit db_user upd now).active = upd.active.getD db_user.active
    ∧ (updateCommit db_user upd now).id = db_user.id
    ∧ (updateCommit db_user upd now).created_at = db_user.created_at := by
  unfold updateCommit
  by_cases h : applyUpdate db_user upd = db_user
  · rw [if_pos h]
    exact ⟨(congrArg User.username h).symm, (congrArg User.email h).symm,
      (congrArg User.first_name h).symm, (congrArg User.last_name h).symm,
      (congrArg User.role h).symm, (congrArg User.active h).symm, rfl, rfl⟩
  · rw [if_neg h]
    exact ⟨rfl, rfl, rfl, rfl, rfl, rfl, rfl, rfl⟩

/-- Claim C3: a successful update applies exactly the supplied fields —
a field present in the request (`some v`, even when `v` equals a
default or the stored value) is applied, a field absent from the
request keeps its stored value — while id and `created_at` are never
touched. -/
theorem update_frame (db : List User) (uid : Int) (upd : UserUpdate)
    (now : Nat) (db_user : User) (db2 : List User) (newu : User)
    (hfind : db.find? (fun u => u.id == uid) = some db_user)
    (hok : update_user db uid upd now = .ok (db2, newu)) :
    newu.username = upd.username.getD db_user.username
    ∧ newu.email = upd.email.getD db_user.email
    ∧ newu.first_name = upd.first_name.getD db_user.first_name
    ∧ newu.last_name = upd.last_name.getD db_user.last_name
    ∧ newu.role = upd.role.getD db_user.role
    ∧ newu.active = upd.active.getD db_user.active
    ∧ newu.id = db_user.id
    ∧ newu.created_at = db_user.created_at := by
  have hn := update_ok_inv db uid upd now db_user db2 newu hfind hok
  subst hn
  exact updateCommit_fields db_user upd now

/-- Row produced by the witness updates below: `alice` after a partial
update of `first_name` committed at time 99. -/
def aliceRenamed : User :=
  ⟨1, "alice_01", "alice@example.com", "NewName", "A", .admin, true, 10, 99⟩

/-- Witness for C3 at a concrete input: updating only `first_name`
changes that field and leaves every other field, the id and
`created_at` as stored. -/
theorem update_frame_witness :
    aliceRenamed.username = "alice_01"
    ∧ aliceRenamed.email = "alice@example.com"
    ∧ aliceRenamed.first_name = "NewName"
    ∧ aliceRenamed.last_name = "A"
    ∧ aliceRenamed.role = .admin
    ∧ aliceRenamed.active = true
    ∧ aliceRenamed.id = 1
    ∧ aliceRenamed.created_at = 10 :=
  update_frame [alice, bob] 1 ⟨none, none, some "NewName", none, none, none⟩
    99 alice [aliceRenamed, bob] aliceRenamed (by decide) (by decide)

/-- Claim C8 counterexample: an update request that supplies no fields
succeeds, yet the returned (and stored) record still carries the old
`updated_at` of 10 — the commit emits no UPDATE, so the timestamp is
not refreshed to the commit time 99. -/
theorem updated_at_noop_cex :
    update_user [alice] 1 ⟨none, none, none, none, none, none⟩ 99
        = .ok ([alice], alice)
    ∧ alice.updated_at = 10 ∧ (10 : Nat) ≠ 99 := by
  decide

/-- Claim C8 (amended): `created_at` never changes across a successful
update; an update with no net change (no fields supplied, or only
values equal to the stored ones) returns the stored row unchanged,
`updated_at` included; an update with a net change refreshes
`updated_at` to the commit time, so with a strictly increasing clock
`updated_at` strictly increases across such updates. -/
theorem updated_at_refresh (db : List User) (uid : Int) (upd : UserUpdate)
    (now : Nat) (db_user : User) (db2 : List User) (newu : User)
    (hfind : db.find? (fun u => u.id == uid) = some db_user)
    (hok : update_user db uid upd now = .ok (db2, newu)) :
    newu.created_at = db_user.created_at
    ∧ (applyUpdate db_user upd = db_user → newu = db_user)
    ∧ (applyUpdate db_user upd ≠ db_user → newu.updated_at = now)
    ∧ (applyUpdate db_user upd ≠ db_user → db_user.updated_at < now →
        db_user.updated_at < newu.updated_at) := by
  have hn := update_ok_inv db uid upd now db_user db2 newu hfind hok
  subst hn
  unfold updateCommit
  by_cases h : applyUpdate db_user upd = db_user
  · rw [if_pos h]
    exact ⟨rfl, fun _ => rfl, fun hc => absurd h hc, fun hc _ => absurd h hc⟩
  · rw [if_neg h]
    exact ⟨rfl, fun hc => absurd hc h, fun _ => rfl, fun _ hlt => hlt⟩

/-- Witness for C8 at a concrete input: a net-change update commits at
time 99, keeping `created_at` and refreshing `updated_at` past the old
stamp. -/
theorem updated_at_refresh_witness :
    aliceRenamed.created_at = 10
    ∧ aliceRenamed.updated_at = 99
    ∧ alice.updated_at < 99 := by
  have h := updated_at_refresh [alice] 1
    ⟨none, none, some "NewName", none, none, none⟩ 99 alice
    [aliceRenamed] aliceRenamed (by decide) (by decide)
  exact ⟨h.1.trans (by decide), h.2.2.1 (by decide), h.2.2.2 (by decide) (by decide)⟩

/-- Claim C2: updating a row's username (or email) to a value held by a
different existing row fails with the already-exists error — and since
the handler raises before any mutation, an error leaves the store
exactly as it was — while updating a row to its own current username
(or email) succeeds and commits no change. -/
theorem update_uniqueness_checks (db : List User) (uid : Int) (now : Nat)
    (db_user : User)
    (hfind : db.find? (fun u => u.id == uid) = some db_user)
    (hwf : dbWellFormed db) :
    (∀ upd v w, upd.username = some v → w ∈ db → w.id ≠ db_user.id →
        w.username = v →
        update_user db uid upd now = .error (.alreadyExists "username" v))
    ∧ (∀ upd v w, upd.username = none → upd.email = some v → w ∈ db →
        w.id ≠ db_user.id → w.email = v →
        update_user db uid upd now = .error (.alreadyExists "email" v))
    ∧ update_user db uid ⟨some db_user.username, none, none, none, none, none⟩ now
        = .ok (db.map (fun u => if u.id == uid then db_user else u), db_user)
    ∧ update_user db uid ⟨none, some db_user.email, none, none, none, none⟩ now
        = .ok (db.map (fun u => if u.id == uid then db_user else u), db_user) := by
  have hmemd : db_user ∈ db := List.mem_of_find?_eq_some hfind
  have hsym : Symmetric (fun a b : User =>
      a.id ≠ b.id ∧ a.username ≠ b.username ∧ a.email ≠ b.email) :=
    fun a b hab => ⟨hab.1.symm, hab.2.1.symm, hab.2.2.symm⟩
  refine ⟨?_, ?_, ?_, ?_⟩
  · intro upd v w hv hw hwid hwu
    have hne : w ≠ db_user := fun he => hwid (congrArg User.id he)
    have hr := List.Pairwise.forall hsym hwf hw hmemd hne
    have hvne : v ≠ db_user.username := fun he => hr.2.1 (hwu.trans he)
    have c1 : (v != db_user.username) = true := bne_iff_ne.mpr hvne
    have c2 : (db.find? (fun u => u.username == v)).isSome = true :=
      List.find?_isSome.mpr ⟨w, hw, beq_iff_eq.mpr hwu⟩
    have hcu : checkUsername db db_user upd
        = some (.alreadyExists "username" v) := by
      simp only [checkUsername, hv]
      simp [c1, c2]
    simp only [update_user, hfind, hcu]
  · intro upd v w hvn hv hw hwid hwe
    have hne : w ≠ db_user := fun he => hwid (congrArg User.id he)
    have hr := List.Pairwise.forall hsym hwf hw hmemd hne
    have hvne : v ≠ db_user.email := fun he => hr.2.2 (hwe.trans he)
    have c1 : (v != db_user.email) = true := bne_iff_ne.mpr hvne
    have c2 : (db.find? (fun u => u.email == v)).isSome = true :=
      List.find?_isSome.mpr ⟨w, hw, beq_iff_eq.mpr hwe⟩
    have hcu0 : checkUsername db db_user upd = none := by
      simp only [checkUsername, hvn]
    have hce : checkEmail db db_user upd = some (.alreadyExists "email" v) := by
      simp only [checkEmail, hv]
      simp [c1, c2]
    simp only [update_user, hfind, hcu0, hce]
  · have hcu0 : checkUsername db db_user
        ⟨some db_user.username, none, none, none, none, none⟩ = none := by
      simp [checkUsername]
    have hce0 : checkEmail db db_user
        ⟨some db_user.username, none, none, none, none, none⟩ = none := rfl
    have happ : applyUpdate db_user
        ⟨some db_user.username, none, none, none, none, none⟩ = db_user := rfl
    have hcommit : updateCommit db_user
        ⟨some db_user.username, none, none, none, none, none⟩ now = db_user := by
      unfold updateCommit
      rw [if_pos happ]
    simp only [update_user, hfind, hcu0, hce0, hcommit]
  · have hcu0 : checkUsername db db_user
        ⟨none, some db_user.email, none, none, none, none⟩ = none := rfl
    have hce0 : checkEmail db db_user
        ⟨none, some db_user.email, none, none, none, none⟩ = none := by
      simp [checkEmail]
    have happ : applyUpdate db_user
        ⟨none, some db_user.email, none, none, none, none⟩ = db_user := rfl
    have hcommit : updateCommit db_user
        ⟨none, some db_user.email, none, none, none, none⟩ now = db_user := by
      unfold updateCommit
      rw [if_pos happ]
    simp only [update_user, hfind, hcu0, hce0, hcommit]

/-- Witness for C2 at a concrete input: pointing the first row's
username at the second row's username fails naming the username. -/
theorem update_uniqueness_checks_witness :
    update_user [alice, bob] 1 ⟨some "bob_02", none, none, none, none, none⟩ 99
      = .error (.alreadyExists "username" "bob_02") :=
  (update_uniqueness_checks [alice, bob] 1 99 alice (by decide) (by decide)).1
    ⟨some "bob_02", none, none, none, none, none⟩ "bob_02" bob
    (by decide) (by decide) (by decide) (by decide)

/-- With query parameters inside their declared bounds the list
handler reaches its body. -/
theorem get_users_ok (db : List User) (q : ListQuery)
    (h0 : 0 ≤ q.skip) (h1 : 1 ≤ q.limit) (h2 : q.limit ≤ 1000) :
    get_users db q = .ok ⟨(db.filter (listFilter q)).length,
      ((db.filter (listFilter q)).drop q.skip.toNat).take q.limit.toNat,
      q.skip, q.limit⟩ := by
  unfold get_users
  rw [if_neg (by omega), if_neg (by omega), if_neg (by omega)]

/-- Claim C10 counterexample: the member NAME string `ADMIN` lies
outside the enum values `admin`/`user`/`guest` and is non-empty, yet
listing with `role=ADMIN` over a store holding one admin row returns
that row and a total of 1, not zero matches: the bind-time lookup maps
the name string to the stored column value. -/
theorem role_filter_uppercase_cex :
    get_users [alice] ⟨0, 100, none, some "ADMIN"⟩ = .ok ⟨1, [alice], 0, 100⟩
    ∧ "ADMIN" ≠ "admin" ∧ "ADMIN" ≠ "user" ∧ "ADMIN" ≠ "guest"
    ∧ "ADMIN" ≠ "" := by
  decide

/-- Claim C10 (amended): the role query parameter is never itself
rejected: with any role string (and in-bounds skip/limit) the handler
answers 200; a role value outside the enum values `admin`/`user`/`guest`
AND their member names `ADMIN`/`USER`/`GUEST` is passed to the database
unmapped, so the page and total cover the rows with that role, which
are none; an empty-string role is treated as if no role filter had
been supplied. -/
theorem role_filter_amended (db : List User) (q : ListQuery)
    (h0 : 0 ≤ q.skip) (h1 : 1 ≤ q.limit) (h2 : q.limit ≤ 1000) :
    (get_users db q).isOk = true
    ∧ (∀ r, q.role = some r →
        r ≠ "admin" → r ≠ "user" → r ≠ "guest" →
        r ≠ "ADMIN" → r ≠ "USER" → r ≠ "GUEST" → r ≠ "" →
        get_users db q = .ok ⟨0, [], q.skip, q.limit⟩)
    ∧ (q.role = some "" →
        get_users db q = get_users db ⟨q.skip, q.limit, q.active, none⟩) := by
  refine ⟨?_, ?_, ?_⟩
  · rw [get_users_ok db q h0 h1 h2]
    rfl
  · intro r hr hra hru hrg hrA hrU hrG hre
    rw [get_users_ok db q h0 h1 h2]
    have a1 : (r == "admin") = false := beq_eq_false_iff_ne.mpr hra
    have a2 : (r == "ADMIN") = false := beq_eq_false_iff_ne.mpr hrA
    have a3 : (r == "user") = false := beq_eq_false_iff_ne.mpr hru
    have a4 : (r == "USER") = false := beq_eq_false_iff_ne.mpr hrU
    have a5 : (r == "guest") = false := beq_eq_false_iff_ne.mpr hrg
    have a6 : (r == "GUEST") = false := beq_eq_false_iff_ne.mpr hrG
    have hbind : enumBindValue r = r := by
      simp [enumBindValue, a1, a2, a3, a4, a5, a6]
    have hfe : db.filter (listFilter q) = [] := by
      rw [List.filter_eq_nil_iff]
      intro u hu
      have hne : (r == "") = false := beq_eq_false_iff_ne.mpr hre
      have hval : (u.role.storedName == enumBindValue r) = false := by
        rw [hbind]
        cases hrole : u.role
        · exact beq_eq_false_iff_ne.mpr (Ne.symm hrA)
        · exact beq_eq_false_iff_ne.mpr (Ne.symm hrU)
        · exact beq_eq_false_iff_ne.mpr (Ne.symm hrG)
      simp [listFilter, hr, hne, hval]
    rw [hfe]
    simp [List.take_nil]
  · intro hr
    have hf : listFilter q = listFilter ⟨q.skip, q.limit, q.active, none⟩ := by
      funext u
      simp [listFilter, hr]
    rw [get_users_ok db q h0 h1 h2,
      get_users_ok db ⟨q.skip, q.limit, q.active, none⟩ h0 h1 h2, hf]

/-- Witness for C10 at a concrete input: a role string that is neither
an enum value nor a member name is accepted and returns a 200 with
zero matches over a two-row store. -/
theorem role_filter_amended_witness :
    get_users [alice, bob] ⟨0, 100, none, some "superman"⟩
      = .ok ⟨0, [], 0, 100⟩ :=
  ((role_filter_amended [alice, bob] ⟨0, 100, none, some "superman"⟩
      (by decide) (by decide) (by decide)).2.1) "superman" rfl
    (by decide) (by decide) (by decide) (by decide) (by decide) (by decide)
    (by decide)

end UserMgmt
